import Mathlib

/-!
Verification of the uniform diff engine, texture resource manager, frame
scheduler and resize coordinator of the glsl-react library, via a shallow
embedding of the TypeScript source into Lean.

Conventions of the embedding:
- JavaScript numbers are modelled as exact numbers (`Int` for uniform values,
  `Rat` for timestamps and pixel ratios); the code under scrutiny only ever
  compares uniform numbers with exact equality, so this is faithful for the
  properties below.
- JavaScript objects used as string-keyed records are modelled as insertion
  ordered association lists with unique keys; a `Set<string>` result is
  modelled as the `List String` of its elements in insertion order.
- Object reference identity on texture sources is modelled by structural
  equality of `TexSource`, under the convention that distinct source objects
  carry distinct `id` fields.
-/

set_option autoImplicit false

namespace GlslReact

/-- The numeric uniform type tags of src/types/index.ts (UniformType minus texture). -/
inductive NumKind
  | float | vec2 | vec3 | vec4
  | int | ivec2 | ivec3 | ivec4
  | mat3 | mat4
  deriving DecidableEq

/-- TextureWrap enum from src/types/index.ts. -/
inductive TextureWrap
  | repeat | clampToEdge | mirroredRepeat
  deriving DecidableEq

/-- TextureFilter enum from src/types/index.ts. -/
inductive TextureFilter
  | nearest | linear
  | nearestMipmapNearest | linearMipmapNearest
  | nearestMipmapLinear | linearMipmapLinear
  deriving DecidableEq

/-- TextureOptions from src/types/index.ts; every field is optional. -/
structure TextureOptions where
  wrapS : Option TextureWrap
  wrapT : Option TextureWrap
  minFilter : Option TextureFilter
  magFilter : Option TextureFilter
  flipY : Option Bool
  deriving DecidableEq

/-- The four kinds of texture source accepted by TextureUniform.value:
HTMLImageElement, HTMLCanvasElement, HTMLVideoElement, ImageBitmap. -/
inductive SourceKind
  | image | canvas | video | bitmap
  deriving DecidableEq

/-- A texture source object. `id` stands for the object reference (distinct
objects have distinct ids); `complete`, `naturalWidth` and `readyState` are the
DOM readiness fields consulted by isTextureSourceReady. -/
structure TexSource where
  id : Nat
  kind : SourceKind
  complete : Bool
  naturalWidth : Nat
  readyState : Nat
  deriving DecidableEq

/-- The representation of a NumericUniform value: number, number[] or
Float32Array. The element sequences are kept, together with which of the three
runtime representations holds them, because uniformsEqual distinguishes the
representations. -/
inductive NumValue
  | num (x : Int)
  | arr (xs : List Int)
  | f32 (xs : List Int)
  deriving DecidableEq

/-- UniformValue: the tagged union of NumericUniform and TextureUniform. -/
inductive UniformValue
  | numeric (kind : NumKind) (value : NumValue)
  | texture (source : TexSource) (options : Option TextureOptions)
  deriving DecidableEq

/-- Uniforms = Record of uniform name to UniformValue, as an insertion ordered
association list with (in well formed snapshots) unique keys. -/
abbrev Uniforms := List (String × UniformValue)

/-- Property style lookup on a string-keyed record: first entry with the key. -/
def lookupA {β : Type} (k : String) : List (String × β) → Option β
  | [] => none
  | kv :: rest => if kv.1 = k then some kv.2 else lookupA k rest

/-- The key list of a record, in insertion order (Object.keys). -/
def keysA {β : Type} (l : List (String × β)) : List String :=
  l.map Prod.fst

/-- Field by field comparison of two defined TextureOptions objects
(src/utils/uniforms.ts lines 118-122). -/
def texOptionsFieldsEqual (a b : TextureOptions) : Bool :=
  a.wrapS == b.wrapS && a.wrapT == b.wrapT &&
  a.minFilter == b.minFilter && a.magFilter == b.magFilter &&
  a.flipY == b.flipY

/-- Comparison of the two optional options objects in uniformsEqual
(src/utils/uniforms.ts lines 112-122): both undefined compare equal via the
reference check, exactly one undefined compares unequal, both defined compare
field by field. The reference based early-true of the source on a shared
object agrees with the field comparison, so it is omitted. -/
def texOptionsEqual : Option TextureOptions → Option TextureOptions → Bool
  | none, none => true
  | none, some _ => false
  | some _, none => false
  | some a, some b => texOptionsFieldsEqual a b

/-- Numeric value comparison of uniformsEqual (src/utils/uniforms.ts lines
125-143): number with number by equality; two plain arrays and two
Float32Arrays by length plus element-wise equality; any mixed pair of
representations falls through to the final return false. -/
def numValuesEqual : NumValue → NumValue → Bool
  | .num a, .num b => a == b
  | .arr a, .arr b => a.length == b.length && (List.zip a b).all fun p => p.1 == p.2
  | .f32 a, .f32 b => a.length == b.length && (List.zip a b).all fun p => p.1 == p.2
  | _, _ => false

/-- uniformsEqual (src/utils/uniforms.ts lines 105-144): type tags first, then
for textures the source reference and the options, and for numerics the
value. -/
def uniformsEqual : UniformValue → UniformValue → Bool
  | .texture sa oa, .texture sb ob =>
      if sa ≠ sb then false else texOptionsEqual oa ob
  | .numeric ka va, .numeric kb vb =>
      if ka ≠ kb then false else numValuesEqual va vb
  | _, _ => false

/-- One iteration of the loop of getChangedUniforms (src/utils/uniforms.ts
lines 161-165): the key is emitted when it is absent from previous or its
value is not uniformsEqual to the previous one. -/
def changedEntry (prev : Uniforms) (kv : String × UniformValue) : Option String :=
  match lookupA kv.1 prev with
  | none => some kv.1
  | some pv => if uniformsEqual kv.2 pv then none else some kv.1

/-- getChangedUniforms (src/utils/uniforms.ts lines 149-168). With no previous
snapshot every key of current is changed; otherwise the loop over current adds
the keys selected by changedEntry. The returned Set of names is modelled as
the list of added names in iteration order. -/
def getChangedUniforms (current : Uniforms) (previous : Option Uniforms) : List String :=
  match previous with
  | none => keysA current
  | some prev => current.filterMap (changedEntry prev)

/-- cloneUniformValue (src/utils/uniforms.ts lines 173-198): textures keep the
source reference and shallow-copy the options object; numeric numbers are
copied, Float32Arrays are rebuilt, plain arrays are spread into a new array.
In the value model each copy is equal to the original. -/
def cloneUniformValue : UniformValue → UniformValue
  | .texture src opts =>
      .texture src
        (match opts with
         | some o => some ⟨o.wrapS, o.wrapT, o.minFilter, o.magFilter, o.flipY⟩
         | none => none)
  | .numeric kind v =>
      .numeric kind
        (match v with
         | .num x => .num x
         | .arr xs => .arr xs
         | .f32 xs => .f32 xs)

/-- cloneUniforms (src/utils/uniforms.ts lines 203-209). -/
def cloneUniforms (u : Uniforms) : Uniforms :=
  u.map fun kv => (kv.1, cloneUniformValue kv.2)

/-- The element sequence held by a numeric value, forgetting the runtime
representation. -/
def NumValue.elems : NumValue → List Int
  | .num x => [x]
  | .arr xs => xs
  | .f32 xs => xs

/-- Representation tag of a numeric value: number, number[] or Float32Array. -/
def NumValue.rep : NumValue → Nat
  | .num _ => 0
  | .arr _ => 1
  | .f32 _ => 2

/-- The notion of an unequal UniformValue pair written in the spec for the
diff engine: kinds differ, or for numerics some element of the value differs
under exact equality (the runtime representation playing no role), or for
textures the source reference or a single options field differs, one side
having undefined options while the other has an object counting as a
difference. -/
def specUnequal : UniformValue → UniformValue → Bool
  | .numeric ka va, .numeric kb vb => ka != kb || va.elems != vb.elems
  | .texture sa oa, .texture sb ob => sa != sb || !texOptionsEqual oa ob
  | .numeric _ _, .texture _ _ => true
  | .texture _ _, .numeric _ _ => true

/-- The amended notion of an unequal UniformValue pair: as the spec says,
except that two numeric values held in different runtime representations are
also unequal even when their element sequences agree. -/
def specUnequalAmended : UniformValue → UniformValue → Bool
  | .numeric ka va, .numeric kb vb =>
      ka != kb || va.rep != vb.rep || va.elems != vb.elems
  | .texture sa oa, .texture sb ob => sa != sb || !texOptionsEqual oa ob
  | .numeric _ _, .texture _ _ => true
  | .texture _ _, .numeric _ _ => true

/-- The original spec sentence about the diff engine, as a proposition about
one pair of snapshots: the changed set holds exactly the keys of current that
are new or map to a spec-unequal value; with no previous snapshot it is the
key set of current. -/
def diffSpecClaim (current : Uniforms) (previous : Option Uniforms) : Prop :=
  ∀ k, k ∈ getChangedUniforms current previous ↔
    match previous with
    | none => k ∈ keysA current
    | some prev =>
        ∃ v, lookupA k current = some v ∧
          (lookupA k prev = none ∨
            ∃ pv, lookupA k prev = some pv ∧ specUnequal v pv = true)

section LookupLemmas

variable {β : Type}

theorem mem_of_lookupA_eq_some {k : String} {v : β} {l : List (String × β)}
    (h : lookupA k l = some v) : (k, v) ∈ l := by
  induction l with
  | nil => simp [lookupA] at h
  | cons kv rest ih =>
    rw [lookupA] at h
    by_cases hk : kv.1 = k
    · rw [if_pos hk] at h
      injection h with h2
      subst hk; subst h2
      exact List.mem_cons_self _ _
    · rw [if_neg hk] at h
      exact List.mem_cons_of_mem _ (ih h)

theorem lookupA_eq_some_of_mem {k : String} {v : β} {l : List (String × β)}
    (hnd : (keysA l).Nodup) (hm : (k, v) ∈ l) : lookupA k l = some v := by
  induction l with
  | nil => simp at hm
  | cons kv rest ih =>
    simp only [keysA, List.map_cons, List.nodup_cons] at hnd
    rcases List.mem_cons.mp hm with heq | hm2
    · rw [lookupA, ← heq]
      simp
    · have hk : k ∈ keysA rest := List.mem_map_of_mem Prod.fst hm2
      have hne : kv.1 ≠ k := fun hh => hnd.1 (hh ▸ hk)
      rw [lookupA, if_neg hne]
      exact ih hnd.2 hm2

theorem lookupA_eq_none_iff {k : String} {l : List (String × β)} :
    lookupA k l = none ↔ k ∉ keysA l := by
  induction l with
  | nil => simp [lookupA, keysA]
  | cons kv rest ih =>
    by_cases hk : kv.1 = k
    · simp [lookupA, keysA, hk]
    · simp only [lookupA, if_neg hk, keysA, List.map_cons, List.mem_cons, ih, keysA]
      constructor
      · rintro hn (h1 | h2)
        · exact hk h1.symm
        · exact hn h2
      · intro hn
        exact fun h2 => hn (Or.inr h2)

end LookupLemmas

theorem changedEntry_eq_some {prev : Uniforms} {kv : String × UniformValue} {k : String} :
    changedEntry prev kv = some k ↔
      kv.1 = k ∧ (lookupA kv.1 prev = none ∨
        ∃ pv, lookupA kv.1 prev = some pv ∧ uniformsEqual kv.2 pv = false) := by
  unfold changedEntry
  rcases hp : lookupA kv.1 prev with _ | pv
  · simp
  · by_cases he : uniformsEqual kv.2 pv = true
    · simp [he]
    · have he2 : uniformsEqual kv.2 pv = false := by
        cases hh : uniformsEqual kv.2 pv
        · rfl
        · exact absurd hh he
      simp [he2]

theorem mem_getChangedUniforms_some {current prev : Uniforms} {k : String}
    (hnd : (keysA current).Nodup) :
    k ∈ getChangedUniforms current (some prev) ↔
      ∃ v, lookupA k current = some v ∧
        (lookupA k prev = none ∨
          ∃ pv, lookupA k prev = some pv ∧ uniformsEqual v pv = false) := by
  show k ∈ current.filterMap (changedEntry prev) ↔ _
  rw [List.mem_filterMap]
  constructor
  · rintro ⟨kv, hmem, hf⟩
    rw [changedEntry_eq_some] at hf
    obtain ⟨hk, hcond⟩ := hf
    subst hk
    exact ⟨kv.2, lookupA_eq_some_of_mem hnd hmem, hcond⟩
  · rintro ⟨v, hl, hcond⟩
    refine ⟨(k, v), mem_of_lookupA_eq_some hl, ?_⟩
    rw [changedEntry_eq_some]
    exact ⟨rfl, hcond⟩

theorem zip_all_eq_prop : ∀ (a b : List Int),
    (a.length = b.length ∧ ∀ (x y : Int), (x, y) ∈ List.zip a b → x = y) ↔ a = b := by
  intro a
  induction a with
  | nil => intro b; cases b <;> simp
  | cons x xs ih =>
    intro b
    cases b with
    | nil => simp
    | cons y ys =>
      simp only [List.length_cons, List.zip_cons_cons, List.mem_cons, List.cons.injEq,
        add_left_inj]
      constructor
      · rintro ⟨hlen, hall⟩
        refine ⟨hall x y (Or.inl rfl), (ih ys).mp ⟨hlen, fun u w hw => hall u w (Or.inr hw)⟩⟩
      · rintro ⟨hxy, hxs⟩
        subst hxs
        refine ⟨rfl, fun u w hw => ?_⟩
        rcases hw with h1 | h2
        · injection h1 with h1a h1b
          rw [h1a, h1b, hxy]
        · exact ((ih xs).mpr rfl).2 u w h2

theorem numValuesEqual_iff (va vb : NumValue) :
    numValuesEqual va vb = true ↔ va.rep = vb.rep ∧ va.elems = vb.elems := by
  cases va <;> cases vb <;>
    simp [numValuesEqual, NumValue.rep, NumValue.elems] <;>
    exact zip_all_eq_prop _ _

theorem texOptionsEqual_refl (o : Option TextureOptions) : texOptionsEqual o o = true := by
  cases o with
  | none => rfl
  | some oo => simp [texOptionsEqual, texOptionsFieldsEqual]

theorem uniformsEqual_refl (v : UniformValue) : uniformsEqual v v = true := by
  cases v with
  | numeric k val =>
    have h : numValuesEqual val val = true := (numValuesEqual_iff val val).mpr ⟨rfl, rfl⟩
    simp [uniformsEqual, h]
  | texture src opts =>
    simp [uniformsEqual, texOptionsEqual_refl]

theorem specUnequalAmended_eq_not_uniformsEqual (a b : UniformValue) :
    specUnequalAmended a b = !uniformsEqual a b := by
  cases a with
  | numeric ka va =>
    cases b with
    | numeric kb vb =>
      by_cases hk : ka = kb
      · subst hk
        have hu : uniformsEqual (.numeric ka va) (.numeric ka vb) = numValuesEqual va vb := by
          simp [uniformsEqual]
        have hs : specUnequalAmended (.numeric ka va) (.numeric ka vb) =
            (va.rep != vb.rep || va.elems != vb.elems) := by
          simp [specUnequalAmended]
        rw [hu, hs]
        cases hnv : numValuesEqual va vb
        · have hne : ¬(va.rep = vb.rep ∧ va.elems = vb.elems) := by
            intro hc
            rw [(numValuesEqual_iff va vb).mpr hc] at hnv
            exact Bool.noConfusion hnv
          rcases not_and_or.mp hne with h | h <;> simp [h]
        · obtain ⟨h1, h2⟩ := (numValuesEqual_iff va vb).mp hnv
          simp [h1, h2]
      · simp [specUnequalAmended, uniformsEqual, hk, bne_iff_ne]
    | texture sb ob => simp [specUnequalAmended, uniformsEqual]
  | texture sa oa =>
    cases b with
    | numeric kb vb => simp [specUnequalAmended, uniformsEqual]
    | texture sb ob =>
      by_cases hs : sa = sb
      · subst hs
        have h1 : uniformsEqual (.texture sa oa) (.texture sa ob) = texOptionsEqual oa ob := by
          simp [uniformsEqual]
        have h2 : specUnequalAmended (.texture sa oa) (.texture sa ob) =
            !texOptionsEqual oa ob := by
          simp [specUnequalAmended]
        rw [h1, h2]
      · simp [specUnequalAmended, uniformsEqual, hs, bne_iff_ne]

theorem specUnequalAmended_iff_not_equal (v pv : UniformValue) :
    specUnequalAmended v pv = true ↔ uniformsEqual v pv = false := by
  rw [specUnequalAmended_eq_not_uniformsEqual]
  cases uniformsEqual v pv <;> simp

/-- C1 counterexample input: current holds a vec2 as a plain number array,
previous holds the same elements as a Float32Array. -/
def cexCurrent : Uniforms := [("u_m", .numeric .vec2 (.arr [0, 0]))]

/-- C1 counterexample input, previous snapshot. -/
def cexPrevious : Uniforms := [("u_m", .numeric .vec2 (.f32 [0, 0]))]

/-- C1 (counterexample): the spec characterisation of the changed set is
false on the code. With current holding a vec2 as the plain array [0, 0] and
previous holding the Float32Array [0, 0], no element of the value differs, so
the spec says the name is unchanged, yet getChangedUniforms reports it. -/
theorem diff_spec_claim_false : ¬ diffSpecClaim cexCurrent (some cexPrevious) := by
  intro h
  have hm : "u_m" ∈ getChangedUniforms cexCurrent (some cexPrevious) := by decide
  obtain ⟨v, hv, hcond⟩ := (h "u_m").mp hm
  have hv0 : lookupA "u_m" cexCurrent =
      some (UniformValue.numeric .vec2 (.arr [0, 0])) := by decide
  rw [hv0] at hv
  injection hv with hv
  subst hv
  rcases hcond with hn | ⟨pv, hpv, hne⟩
  · have : lookupA "u_m" cexPrevious ≠ none := by decide
    exact this hn
  · have hpv0 : lookupA "u_m" cexPrevious =
        some (UniformValue.numeric .vec2 (.f32 [0, 0])) := by decide
    rw [hpv0] at hpv
    injection hpv with hpv
    subst hpv
    exact absurd hne (by decide)

/-- C1 (amended): over snapshots with unique keys, getChangedUniforms returns
exactly those names that are keys of current and are either absent from
previous or mapped to an unequal UniformValue, where numeric values are
unequal when the kind, the runtime representation, the length or some element
differs, and texture values are unequal when the source reference or some
options field differs, one side having undefined options counting as a
difference; when previous is null the result is exactly the key set of
current; names absent from current never appear. -/
theorem getChangedUniforms_characterization (current : Uniforms)
    (previous : Option Uniforms) (hnd : (keysA current).Nodup) :
    ∀ k, k ∈ getChangedUniforms current previous ↔
      match previous with
      | none => k ∈ keysA current
      | some prev =>
          ∃ v, lookupA k current = some v ∧
            (lookupA k prev = none ∨
              ∃ pv, lookupA k prev = some pv ∧ specUnequalAmended v pv = true) := by
  intro k
  cases previous with
  | none => exact Iff.rfl
  | some prev =>
    show k ∈ getChangedUniforms current (some prev) ↔ _
    rw [mem_getChangedUniforms_some hnd]
    simp only [specUnequalAmended_iff_not_equal]

/-- Witness for the amended C1 theorem at a concrete input. -/
theorem getChangedUniforms_characterization_witness :
    (keysA cexCurrent).Nodup ∧
    ("u_m" ∈ getChangedUniforms cexCurrent (some cexPrevious) ↔
      ∃ v, lookupA "u_m" cexCurrent = some v ∧
        (lookupA "u_m" cexPrevious = none ∨
          ∃ pv, lookupA "u_m" cexPrevious = some pv ∧ specUnequalAmended v pv = true)) :=
  ⟨by decide,
   getChangedUniforms_characterization cexCurrent (some cexPrevious) (by decide) "u_m"⟩

theorem cloneUniformValue_eq (v : UniformValue) : cloneUniformValue v = v := by
  cases v with
  | texture src opts => cases opts <;> rfl
  | numeric kind val => cases val <;> rfl

theorem lookupA_cloneUniforms (k : String) (A : Uniforms) :
    lookupA k (cloneUniforms A) = (lookupA k A).map cloneUniformValue := by
  induction A with
  | nil => rfl
  | cons kv rest ih =>
    show lookupA k ((kv.1, cloneUniformValue kv.2) :: cloneUniforms rest) = _
    by_cases h : kv.1 = k
    · simp [lookupA, h]
    · simp [lookupA, h, ih]

/-- C2: diffing a snapshot with unique keys against its clone yields the
empty changed set, and every entry of the clone is uniformsEqual to the
corresponding entry of the original. -/
theorem diff_after_clone_empty (A : Uniforms) (hnd : (keysA A).Nodup) :
    getChangedUniforms A (some (cloneUniforms A)) = [] ∧
    ∀ k v, lookupA k A = some v →
      ∃ pv, lookupA k (cloneUniforms A) = some pv ∧ uniformsEqual v pv = true := by
  constructor
  · show A.filterMap (changedEntry (cloneUniforms A)) = []
    rw [List.filterMap_eq_nil_iff]
    intro kv hkv
    unfold changedEntry
    have hl : lookupA kv.1 (cloneUniforms A) = some (cloneUniformValue kv.2) := by
      rw [lookupA_cloneUniforms, lookupA_eq_some_of_mem hnd hkv]
      rfl
    rw [hl, cloneUniformValue_eq]
    simp [uniformsEqual_refl]
  · intro k v hv
    refine ⟨cloneUniformValue v, ?_, ?_⟩
    · rw [lookupA_cloneUniforms, hv]
      rfl
    · rw [cloneUniformValue_eq]
      exact uniformsEqual_refl v

/-- Concrete snapshot used as the C2 witness input. -/
def wSnap : Uniforms :=
  [("u_a", .numeric .float (.num 1)),
   ("u_b", .numeric .mat3 (.f32 [1, 0, 0, 0, 1, 0, 0, 0, 1])),
   ("u_t", .texture ⟨7, .image, true, 32, 0⟩ (some ⟨some .repeat, none, none, none, some true⟩))]

/-- Witness for the C2 theorem at a concrete input. -/
theorem diff_after_clone_empty_witness :
    (keysA wSnap).Nodup ∧
    getChangedUniforms wSnap (some (cloneUniforms wSnap)) = [] ∧
    ∃ pv, lookupA "u_t" (cloneUniforms wSnap) = some pv ∧
      uniformsEqual (.texture ⟨7, .image, true, 32, 0⟩
        (some ⟨some .repeat, none, none, none, some true⟩)) pv = true :=
  ⟨by decide, (diff_after_clone_empty wSnap (by decide)).1,
   (diff_after_clone_empty wSnap (by decide)).2 "u_t" _ (by decide)⟩

/-- C10: two numeric uniforms of the same kind with identical element
sequences held in different representations, a plain array against a
Float32Array, are not uniformsEqual, so getChangedUniforms reports such a
name as changed. -/
theorem mixed_representation_reported_changed
    (kind : NumKind) (xs : List Int) (name : String) (current previous : Uniforms)
    (hmem : (name, UniformValue.numeric kind (.arr xs)) ∈ current)
    (hprev : lookupA name previous = some (UniformValue.numeric kind (.f32 xs))) :
    uniformsEqual (UniformValue.numeric kind (.arr xs))
        (UniformValue.numeric kind (.f32 xs)) = false ∧
    name ∈ getChangedUniforms current (some previous) := by
  have hne : uniformsEqual (UniformValue.numeric kind (.arr xs))
      (UniformValue.numeric kind (.f32 xs)) = false := by
    simp [uniformsEqual, numValuesEqual]
  refine ⟨hne, ?_⟩
  show name ∈ current.filterMap (changedEntry previous)
  rw [List.mem_filterMap]
  refine ⟨(name, UniformValue.numeric kind (.arr xs)), hmem, ?_⟩
  rw [changedEntry_eq_some]
  exact ⟨rfl, Or.inr ⟨_, hprev, hne⟩⟩

/-- Witness for the C10 theorem at a concrete input. -/
theorem mixed_representation_reported_changed_witness :
    uniformsEqual (UniformValue.numeric .vec2 (.arr [0, 0]))
        (UniformValue.numeric .vec2 (.f32 [0, 0])) = false ∧
    "u_m" ∈ getChangedUniforms cexCurrent (some cexPrevious) :=
  mixed_representation_reported_changed .vec2 [0, 0] "u_m" cexCurrent cexPrevious
    (by decide) (by decide)

/-- isTextureSourceReady (src/utils/textures.ts lines 128-141): an image is
ready when complete with positive naturalWidth, a video when readyState is at
least HAVE_CURRENT_DATA = 2, a canvas or bitmap always. -/
def isTextureSourceReady (s : TexSource) : Bool :=
  match s.kind with
  | .image => s.complete && decide (0 < s.naturalWidth)
  | .video => decide (2 ≤ s.readyState)
  | .canvas => true
  | .bitmap => true

/-- A texture-typed uniform as consumed by useTextures. -/
structure TexUniform where
  source : TexSource
  options : Option TextureOptions
  deriving DecidableEq

/-- TextureInfo of useTextures, minus the opaque GPU texture object: the
recorded source and the allocated texture unit. -/
structure TextureInfo where
  source : TexSource
  unit : Nat
  deriving DecidableEq

/-- The two reference-held maps of useTextures, texturesRef and
textureUnitsRef, which the hook mutates in lockstep; modelled as a single
insertion ordered map from uniform name to TextureInfo. -/
abbrev TexState := List (String × TextureInfo)

/-- The unit indices of the live bindings (the values of textureUnitsRef). -/
def usedUnits (st : TexState) : List Nat :=
  st.map fun kv => kv.2.unit

/-- getAvailableUnit (the hook, lines 30-39): scan i = 0, 1, ... below
maxUnits and return the first index held by no live binding; none models the
thrown No available texture units error, the ResourceExhausted condition. -/
def getAvailableUnit (maxUnits : Nat) (st : TexState) : Option Nat :=
  (List.range maxUnits).find? fun i => !(usedUnits st).contains i

/-- The removal loop of the useTextures effect (lines 87-94): every binding
whose name is no longer among the texture uniforms is deleted and its unit
freed; the bindings that remain keep their order. -/
def removeStale (names : List String) (st : TexState) : TexState :=
  st.filter fun kv => names.contains kv.1

/-- One iteration of the creation/update loop of the useTextures effect
(lines 97-140): a non-ready source is skipped with a warning; an existing
binding is re-uploaded in place and its recorded source replaced; a fresh
name gets the lowest free unit and its binding is appended, unless the pool
is exhausted, in which case the thrown error is caught, logged, and the state
is left unchanged. -/
def processUniform (maxUnits : Nat) (st : TexState) (nu : String × TexUniform) : TexState :=
  if !isTextureSourceReady nu.2.source then st
  else
    match lookupA nu.1 st with
    | some _ =>
        st.map fun kv =>
          if kv.1 = nu.1 then (kv.1, ⟨nu.2.source, kv.2.unit⟩) else kv
    | none =>
        match getAvailableUnit maxUnits st with
        | none => st
        | some u => st ++ [(nu.1, ⟨nu.2.source, u⟩)]

/-- The creation/update loop over all texture uniforms, in map iteration
order. -/
def reconcile (maxUnits : Nat) (st : TexState) (us : List (String × TexUniform)) : TexState :=
  us.foldl (processUniform maxUnits) st

theorem find?_range'_eq_some (p : Nat → Bool) :
    ∀ (n s k : Nat), s ≤ k → k < s + n → p k = true →
      (∀ j, s ≤ j → j < k → p j = false) →
      (List.range' s n).find? p = some k := by
  intro n
  induction n with
  | zero =>
    intro s k hsk hk _ _
    exact absurd hk (by omega)
  | succ n ih =>
    intro s k hsk hk hp hsmall
    rw [List.range'_succ]
    by_cases hs : s = k
    · subst hs
      exact List.find?_cons_of_pos _ hp
    · have hlt : s < k := lt_of_le_of_ne hsk hs
      have hps : p s = false := hsmall s le_rfl hlt
      rw [List.find?_cons_of_neg _ (by rw [hps]; exact Bool.false_ne_true)]
      exact ih (s + 1) k hlt (by omega) hp (fun j hj1 hj2 => hsmall j (by omega) hj2)

theorem mem_usedUnits_not_contains {st : TexState} {k : Nat} (h : k ∉ usedUnits st) :
    (!(usedUnits st).contains k) = true := by
  simp only [List.contains, Bool.not_eq_true']
  cases he : List.elem k (usedUnits st)
  · rfl
  · exact absurd (List.elem_iff.mp he) h

theorem getAvailableUnit_eq_some_smallest (maxUnits k : Nat) (st : TexState)
    (hk : k < maxUnits) (hfree : k ∉ usedUnits st)
    (hsmall : ∀ j, j < k → j ∈ usedUnits st) :
    getAvailableUnit maxUnits st = some k := by
  unfold getAvailableUnit
  rw [List.range_eq_range']
  refine find?_range'_eq_some _ maxUnits 0 k (Nat.zero_le k) (by omega)
    (mem_usedUnits_not_contains hfree) (fun j _ hj => ?_)
  have hmem := hsmall j hj
  simp only [List.contains, Bool.not_eq_false']
  exact List.elem_iff.mpr hmem

theorem getAvailableUnit_eq_none (maxUnits : Nat) (st : TexState)
    (hall : ∀ i, i < maxUnits → i ∈ usedUnits st) :
    getAvailableUnit maxUnits st = none := by
  unfold getAvailableUnit
  rw [List.find?_eq_none]
  intro i hi
  have hmem := hall i (List.mem_range.mp hi)
  simp only [List.contains, Bool.not_eq_true, Bool.not_eq_false']
  exact List.elem_iff.mpr hmem

theorem processUniform_fresh (maxUnits : Nat) (st : TexState) (name : String)
    (u : TexUniform) (k : Nat)
    (hready : isTextureSourceReady u.source = true)
    (hfresh : lookupA name st = none)
    (havail : getAvailableUnit maxUnits st = some k) :
    processUniform maxUnits st (name, u) = st ++ [(name, ⟨u.source, k⟩)] := by
  unfold processUniform
  rw [hready]
  simp only [Bool.not_true, Bool.false_eq_true, if_false]
  rw [hfresh, havail]

theorem reconcile_fresh_units (maxUnits : Nat) :
    ∀ (us : List (String × TexUniform)) (st : TexState) (m : Nat),
      usedUnits st = List.range m →
      (keysA st ++ keysA us).Nodup →
      (∀ nu ∈ us, isTextureSourceReady nu.2.source = true) →
      m + us.length ≤ maxUnits →
      usedUnits (reconcile maxUnits st us) = List.range (m + us.length) := by
  intro us
  induction us with
  | nil =>
    intro st m hu _ _ _
    simpa [reconcile] using hu
  | cons nu rest ih =>
    intro st m hu hnd hready hle
    have hr : isTextureSourceReady nu.2.source = true :=
      hready nu (List.mem_cons_self _ _)
    have hdisj : (keysA st).Disjoint (keysA (nu :: rest)) :=
      (List.nodup_append.mp hnd).2.2
    have hfresh : lookupA nu.1 st = none := by
      rw [lookupA_eq_none_iff]
      intro hmem
      exact hdisj hmem (by simp [keysA])
    have hm : m < maxUnits := by
      have := hle
      simp only [List.length_cons] at this
      omega
    have havail : getAvailableUnit maxUnits st = some m := by
      refine getAvailableUnit_eq_some_smallest maxUnits m st hm ?_ ?_
      · rw [hu]
        simp
      · intro j hj
        rw [hu]
        exact List.mem_range.mpr hj
    have hstep : processUniform maxUnits st nu =
        st ++ [(nu.1, ⟨nu.2.source, m⟩)] := by
      have := processUniform_fresh maxUnits st nu.1 nu.2 m hr hfresh havail
      exact this
    have hrec : reconcile maxUnits st (nu :: rest) =
        reconcile maxUnits (processUniform maxUnits st nu) rest := rfl
    rw [hrec, hstep]
    have happ : usedUnits (st ++ [(nu.1, ⟨nu.2.source, m⟩)]) = List.range (m + 1) := by
      have h1 : usedUnits (st ++ [(nu.1, (⟨nu.2.source, m⟩ : TextureInfo))]) =
          usedUnits st ++ [m] := by
        simp [usedUnits]
      rw [h1, hu, ← List.range_succ]
    have hnd2 : (keysA (st ++ [(nu.1, ⟨nu.2.source, m⟩)]) ++ keysA rest).Nodup := by
      have heq : keysA (st ++ [(nu.1, (⟨nu.2.source, m⟩ : TextureInfo))]) ++ keysA rest =
          keysA st ++ (nu.1 :: keysA rest) := by
        simp [keysA]
      rw [heq]
      simpa [keysA] using hnd
    have hres := ih (st ++ [(nu.1, ⟨nu.2.source, m⟩)]) (m + 1) happ hnd2
      (fun x hx => hready x (List.mem_cons_of_mem _ hx)) (by simp at hle ⊢; omega)
    rw [hres]
    congr 1
    simp
    omega

/-- C3: texture unit allocation always hands out the smallest free index.
Processing N fresh, ready texture uniforms from an empty pool yields the unit
indices 0, ..., N-1 in order of first appearance, and whenever k below
maxUnits is free while every smaller index is held, such as right after the
binding holding k was removed, the next creation receives exactly unit k. -/
theorem texture_unit_allocation_lowest_free
    (maxUnits : Nat) (us : List (String × TexUniform)) (st : TexState)
    (k : Nat) (name : String) (u : TexUniform) :
    ((keysA us).Nodup → (∀ nu ∈ us, isTextureSourceReady nu.2.source = true) →
      us.length ≤ maxUnits →
      usedUnits (reconcile maxUnits [] us) = List.range us.length) ∧
    (k < maxUnits → k ∉ usedUnits st → (∀ j, j < k → j ∈ usedUnits st) →
      isTextureSourceReady u.source = true → lookupA name st = none →
      getAvailableUnit maxUnits st = some k ∧
      processUniform maxUnits st (name, u) = st ++ [(name, ⟨u.source, k⟩)]) := by
  constructor
  · intro hnd hready hle
    have := reconcile_fresh_units maxUnits us [] 0 rfl (by simpa [keysA] using hnd)
      hready (by simpa using hle)
    simpa using this
  · intro hk hfree hsmall hready hfresh
    have havail := getAvailableUnit_eq_some_smallest maxUnits k st hk hfree hsmall
    exact ⟨havail, processUniform_fresh maxUnits st name u k hready hfresh havail⟩

/-- A ready image source used by concrete witnesses. -/
def wImgSource : TexSource := ⟨11, .image, true, 64, 0⟩

/-- A second ready image source used by concrete witnesses. -/
def wImgSource2 : TexSource := ⟨12, .image, true, 16, 0⟩

/-- Concrete texture uniform list for the C3 witness. -/
def wTexUs : List (String × TexUniform) :=
  [("u_t0", ⟨wImgSource, none⟩), ("u_t1", ⟨wImgSource2, none⟩)]

/-- Concrete pool state for the C3 witness: unit 0 was freed, unit 1 is
held. -/
def wTexSt : TexState := [("u_keep", ⟨wImgSource, 1⟩)]

/-- Witness for the C3 theorem at concrete inputs. -/
theorem texture_unit_allocation_lowest_free_witness :
    usedUnits (reconcile 8 [] wTexUs) = List.range 2 ∧
    getAvailableUnit 8 wTexSt = some 0 ∧
    processUniform 8 wTexSt ("u_new", ⟨wImgSource2, none⟩) =
      wTexSt ++ [("u_new", ⟨wImgSource2, 0⟩)] := by
  have h := texture_unit_allocation_lowest_free 8 wTexUs wTexSt 0 "u_new" ⟨wImgSource2, none⟩
  refine ⟨h.1 (by decide) (by decide) (by decide), ?_, ?_⟩
  · exact (h.2 (by decide) (by decide) (fun j hj => absurd hj (Nat.not_lt_zero j))
      (by decide) (by decide)).1
  · exact (h.2 (by decide) (by decide) (fun j hj => absurd hj (Nat.not_lt_zero j))
      (by decide) (by decide)).2

/-- C4: when every unit index below maxUnits is held by a live binding, an
attempted creation hits the ResourceExhausted condition, modelled by
getAvailableUnit returning none for the thrown error; the caught error leaves
every existing binding and the name-to-unit map exactly as they were, and the
loop continues with the remaining uniforms. -/
theorem texture_pool_exhaustion_preserves_bindings
    (maxUnits : Nat) (st : TexState) (name : String) (u : TexUniform)
    (rest : List (String × TexUniform))
    (hfull : ∀ i, i < maxUnits → i ∈ usedUnits st)
    (hfresh : lookupA name st = none)
    (hready : isTextureSourceReady u.source = true) :
    getAvailableUnit maxUnits st = none ∧
    processUniform maxUnits st (name, u) = st ∧
    reconcile maxUnits st ((name, u) :: rest) = reconcile maxUnits st rest := by
  have hnone := getAvailableUnit_eq_none maxUnits st hfull
  have hproc : processUniform maxUnits st (name, u) = st := by
    unfold processUniform
    rw [hready]
    simp only [Bool.not_true, Bool.false_eq_true, if_false]
    rw [hfresh, hnone]
  refine ⟨hnone, hproc, ?_⟩
  show reconcile maxUnits (processUniform maxUnits st (name, u)) rest = _
  rw [hproc]

/-- Fully occupied single-unit pool for the C4 witness. -/
def wFullSt : TexState := [("u_keep", ⟨wImgSource, 0⟩)]

/-- The result of invoking the setUniform primitive (src/utils/uniforms.ts
lines 11-100) from the per-tick loop. The only throwing paths are a texture
uniform reaching setUniform without a texture unit, and the loop
dereferencing a name missing from the active snapshot; numeric pushes do not
throw. -/
def setUniformResult : Option UniformValue → Option Nat → Except String Unit
  | none, _ => .error "TypeError: reading properties of undefined"
  | some (.texture _ _), none =>
      .error "Texture unit must be provided for texture uniforms"
  | some (.texture _ _), some _ => .ok ()
  | some (.numeric _ _), _ => .ok ()

/-- The outcome of the changed-uniform loop of renderLoop: names applied,
names whose application threw (caught and logged), and names silently skipped
for lack of a GPU location, each in processing order. -/
structure ApplyOutcome where
  applied : List String
  errors : List String
  skipped : List String
  deriving DecidableEq

/-- The changed-uniform loop of renderLoop (the component, lines 162-173):
every name of the changed set is looked up among the uniform locations; a
missing location is skipped silently; otherwise setUniform is attempted with
the texture unit recorded for the name, a thrown error being caught and
logged while the loop continues with the next name. -/
def applyChanged (locations : List (String × Nat)) (active : Uniforms)
    (units : List (String × Nat)) : List String → ApplyOutcome
  | [] => ⟨[], [], []⟩
  | key :: rest =>
    let out := applyChanged locations active units rest
    match lookupA key locations with
    | none => ⟨out.applied, out.errors, key :: out.skipped⟩
    | some _ =>
      match setUniformResult (lookupA key active) (lookupA key units) with
      | .ok _ => ⟨key :: out.applied, out.errors, out.skipped⟩
      | .error _ => ⟨out.applied, key :: out.errors, out.skipped⟩

/-- One binding of the per-frame dynamic texture refresh of renderLoop (the
component, lines 148-160): a live binding is re-uploaded this tick exactly
when its name currently maps to a texture uniform whose source is a video or
canvas element. -/
def dynamicEntry (active : Uniforms) (kv : String × TextureInfo) : Option String :=
  match lookupA kv.1 active with
  | some (.texture src _) =>
      if src.kind = .video ∨ src.kind = .canvas then some kv.1 else none
  | _ => none

/-- The names re-uploaded by the dynamic refresh loop of one tick. -/
def dynamicRefresh (bindings : TexState) (active : Uniforms) : List String :=
  bindings.filterMap (dynamicEntry active)

/-- The GPU-side context of one renderLoop tick: the resolved locations of
the three built-in uniforms, the uniform location map and the texture unit
map. -/
structure RenderEnv where
  resolutionLoc : Option Nat
  timeLoc : Option Nat
  mouseLoc : Option Nat
  uniformLocations : List (String × Nat)
  textureUnits : List (String × Nat)

/-- The mutable state read by one renderLoop tick: the rAF timestamp in
milliseconds, canvas backing-store size, pointer position, active uniforms,
changed set and live texture bindings. -/
structure TickInput where
  time : Rat
  canvasW : Int
  canvasH : Int
  mouseX : Rat
  mouseY : Rat
  active : Uniforms
  changed : List String
  bindings : TexState

/-- The observable effects of one renderLoop tick. -/
structure TickOutput where
  clearCalls : Nat
  resolutionPushed : Option (Int × Int)
  timePushed : Option Rat
  mousePushed : Option (Rat × Rat)
  dynamicUploads : List String
  outcome : ApplyOutcome
  changedAfter : List String
  drawCalls : Nat

/-- One tick of renderLoop (the component, lines 122-189): clear the surface,
push the three built-in uniforms where their locations exist, with the time
uniform pushed as the raw tick timestamp times 0.001, refresh dynamic
texture sources, run the changed-uniform loop, clear the changed set, and
issue exactly one draw call. -/
def renderTick (env : RenderEnv) (inp : TickInput) : TickOutput where
  clearCalls := 1
  resolutionPushed := env.resolutionLoc.map fun _ => (inp.canvasW, inp.canvasH)
  timePushed := env.timeLoc.map fun _ => inp.time * (1 / 1000)
  mousePushed := env.mouseLoc.map fun _ => (inp.mouseX, inp.mouseY)
  dynamicUploads := dynamicRefresh inp.bindings inp.active
  outcome := applyChanged env.uniformLocations inp.active env.textureUnits inp.changed
  changedAfter := []
  drawCalls := 1

/-- The uploads issued by the dynamic refresh across n consecutive ticks on
unchanged state. -/
def ticksDynamicUploads (env : RenderEnv) (inp : TickInput) (n : Nat) : List String :=
  (List.replicate n (renderTick env inp).dynamicUploads).flatten

/-- The canvas backing-store dimensions. -/
structure ResizeState where
  width : Int
  height : Int
  deriving DecidableEq

/-- The observable result of one handleResize call: the new backing-store
state, the viewport calls issued, and the number of immediate out-of-cycle
render frames invoked. -/
structure ResizeResult where
  state : ResizeState
  viewportCalls : List (Int × Int × Int × Int)
  immediateFrames : Nat
  deriving DecidableEq

/-- handleResize (the component, lines 90-110): compute the floor of client
size times pixel ratio per axis; when the targets match the current
backing-store size do nothing; otherwise set both dimensions, issue one
viewport call at the origin with the new size, and, when a render function is
registered, invoke one immediate frame. -/
def handleResize (clientW clientH : Int) (pixelRatio : Rat) (hasRenderFn : Bool)
    (st : ResizeState) : ResizeResult :=
  let displayWidth : Int := Int.floor ((clientW : Rat) * pixelRatio)
  let displayHeight : Int := Int.floor ((clientH : Rat) * pixelRatio)
  if st.width ≠ displayWidth ∨ st.height ≠ displayHeight then
    ⟨⟨displayWidth, displayHeight⟩, [(0, 0, displayWidth, displayHeight)],
      if hasRenderFn then 1 else 0⟩
  else
    ⟨st, [], 0⟩

/-- The resolved GPU sampler parameters after createTexture applies its per
field defaults (src/utils/textures.ts lines 21-27). -/
structure ResolvedTextureParams where
  wrapS : TextureWrap
  wrapT : TextureWrap
  minFilter : TextureFilter
  magFilter : TextureFilter
  flipY : Bool
  deriving DecidableEq

/-- The per-field defaulting of createTexture: an absent options object, and
absent fields of a present one, fall back to clamp-to-edge wrapping, linear
filtering and flipY enabled. -/
def resolveTextureParams (options : Option TextureOptions) : ResolvedTextureParams :=
  match options with
  | none => ⟨.clampToEdge, .clampToEdge, .linear, .linear, true⟩
  | some o =>
      ⟨o.wrapS.getD .clampToEdge, o.wrapT.getD .clampToEdge,
       o.minFilter.getD .linear, o.magFilter.getD .linear, o.flipY.getD true⟩

/-- ShaderCanvasOptions (src/types/index.ts lines 76-90), reduced to the
field relevant here: defaultTextureOptions is documented as the fallback
applied to texture uniforms that do not carry their own options. -/
structure ShaderCanvasOptions where
  defaultTextureOptions : Option TextureOptions
  deriving DecidableEq

/-- The options that actually reach createTexture for a texture uniform of
the ShaderCanvas component: the component passes only gl and uniforms to
useTextures (the component, line 46), and the creation branch forwards the
per-uniform options alone (the hook, line 127), so the configured
defaultTextureOptions never flows into texture creation. -/
def shaderCanvasCreationOptions (_cfg : ShaderCanvasOptions) (u : TexUniform) :
    Option TextureOptions :=
  u.options

/-- Witness for the C4 theorem at concrete inputs: one unit, one live
binding, one further creation attempt. -/
theorem texture_pool_exhaustion_preserves_bindings_witness :
    getAvailableUnit 1 wFullSt = none ∧
    processUniform 1 wFullSt ("u_b", ⟨wImgSource2, none⟩) = wFullSt ∧
    reconcile 1 wFullSt [("u_b", ⟨wImgSource2, none⟩)] = reconcile 1 wFullSt [] :=
  texture_pool_exhaustion_preserves_bindings 1 wFullSt "u_b" ⟨wImgSource2, none⟩ []
    (fun i hi => by
      have h0 : i = 0 := Nat.lt_one_iff.mp hi
      rw [h0]
      decide)
    (by decide) (by decide)

theorem dynamicEntry_eq_some {active : Uniforms} {kv : String × TextureInfo}
    {name : String} :
    dynamicEntry active kv = some name ↔
      kv.1 = name ∧ ∃ src opts, lookupA kv.1 active = some (.texture src opts) ∧
        (src.kind = .video ∨ src.kind = .canvas) := by
  unfold dynamicEntry
  rcases ha : lookupA kv.1 active with _ | v
  · simp
  · cases v with
    | numeric k val => simp
    | texture src opts =>
      show (if src.kind = SourceKind.video ∨ src.kind = SourceKind.canvas
          then some kv.1 else none) = some name ↔ _
      by_cases hk : src.kind = .video ∨ src.kind = .canvas
      · rw [if_pos hk]
        constructor
        · intro h
          injection h with h
          exact ⟨h, src, opts, rfl, hk⟩
        · rintro ⟨h1, _, _, _, _⟩
          rw [h1]
      · rw [if_neg hk]
        constructor
        · intro h
          exact Option.noConfusion h
        · rintro ⟨h1, src2, opts2, heq, hk2⟩
          injection heq with heq
          injection heq with hs ho
          exact absurd (hs ▸ hk2) hk

theorem mem_dynamicRefresh {bindings : TexState} {active : Uniforms} {name : String} :
    name ∈ dynamicRefresh bindings active ↔
      ∃ info src opts, (name, info) ∈ bindings ∧
        lookupA name active = some (.texture src opts) ∧
        (src.kind = .video ∨ src.kind = .canvas) := by
  unfold dynamicRefresh
  rw [List.mem_filterMap]
  constructor
  · rintro ⟨kv, hmem, hf⟩
    rw [dynamicEntry_eq_some] at hf
    obtain ⟨hk1, src, opts, hl, hkind⟩ := hf
    subst hk1
    exact ⟨kv.2, src, opts, hmem, hl, hkind⟩
  · rintro ⟨info, src, opts, hmem, hl, hkind⟩
    exact ⟨(name, info), hmem, dynamicEntry_eq_some.mpr ⟨rfl, src, opts, hl, hkind⟩⟩

theorem dynamicRefresh_sublist (bindings : TexState) (active : Uniforms) :
    (dynamicRefresh bindings active).Sublist (keysA bindings) := by
  induction bindings with
  | nil => simp [dynamicRefresh]
  | cons kv rest ih =>
    show (List.filterMap (dynamicEntry active) (kv :: rest)).Sublist (kv.1 :: keysA rest)
    rw [List.filterMap_cons]
    rcases h : dynamicEntry active kv with _ | x
    · exact List.Sublist.cons _ ih
    · have hx : kv.1 = x := (dynamicEntry_eq_some.mp h).1
      rw [← hx]
      exact List.Sublist.cons₂ _ ih

theorem count_flatten_replicate (n : Nat) (l : List String) (a : String) :
    ((List.replicate n l).flatten).count a = n * l.count a := by
  induction n with
  | zero => simp
  | succ n ih =>
    rw [List.replicate_succ, List.flatten_cons, List.count_append, ih]
    ring

/-- C5: on every tick, a live binding is re-uploaded exactly when its
current uniform source is a video or canvas element; consequently, across any
number n of ticks with unchanged state, a video or canvas backed name is
uploaded n times by the refresh loop while an image or bitmap backed name is
uploaded zero times by it (its only upload being the reconciliation-time
creation). -/
theorem dynamic_texture_refresh_policy (env : RenderEnv) (inp : TickInput)
    (name : String) (hnd : (keysA inp.bindings).Nodup) :
    (name ∈ (renderTick env inp).dynamicUploads ↔
      ∃ info src opts, (name, info) ∈ inp.bindings ∧
        lookupA name inp.active = some (.texture src opts) ∧
        (src.kind = .video ∨ src.kind = .canvas)) ∧
    (∀ (n : Nat) (info : TextureInfo) (src : TexSource) (opts : Option TextureOptions),
      (name, info) ∈ inp.bindings →
      lookupA name inp.active = some (.texture src opts) →
      ((src.kind = .video ∨ src.kind = .canvas) →
        (ticksDynamicUploads env inp n).count name = n) ∧
      ((src.kind = .image ∨ src.kind = .bitmap) →
        (ticksDynamicUploads env inp n).count name = 0)) := by
  have hout : (renderTick env inp).dynamicUploads =
      dynamicRefresh inp.bindings inp.active := rfl
  constructor
  · rw [hout]
    exact mem_dynamicRefresh
  · intro n info src opts hb hl
    constructor
    · intro hk
      unfold ticksDynamicUploads
      rw [hout, count_flatten_replicate]
      have hmm : name ∈ dynamicRefresh inp.bindings inp.active :=
        mem_dynamicRefresh.mpr ⟨info, src, opts, hb, hl, hk⟩
      have hndup : (dynamicRefresh inp.bindings inp.active).Nodup :=
        (dynamicRefresh_sublist _ _).nodup hnd
      rw [List.count_eq_one_of_mem hndup hmm, mul_one]
    · intro hk
      unfold ticksDynamicUploads
      rw [hout, count_flatten_replicate]
      have h0 : (dynamicRefresh inp.bindings inp.active).count name = 0 := by
        rw [List.count_eq_zero]
        intro hmm
        obtain ⟨info2, src2, opts2, hb2, hl2, hk2⟩ := mem_dynamicRefresh.mp hmm
        rw [hl] at hl2
        injection hl2 with hl3
        injection hl3 with hs ho
        rcases hk with h | h <;> rcases hk2 with h2 | h2 <;>
          rw [← hs, h] at h2 <;> exact SourceKind.noConfusion h2
      rw [h0, mul_zero]

/-- A ready video source used by the C5 witness. -/
def wVidSource : TexSource := ⟨21, .video, false, 0, 4⟩

/-- Tick context for the C5 witness. -/
def wC5Env : RenderEnv := ⟨none, none, none, [], []⟩

/-- Tick state for the C5 witness: one video binding and one image binding,
both present among the active uniforms. -/
def wC5Inp : TickInput :=
  ⟨0, 0, 0, 0, 0,
   [("u_vid", .texture wVidSource none), ("u_img", .texture wImgSource none)],
   [],
   [("u_vid", ⟨wVidSource, 0⟩), ("u_img", ⟨wImgSource, 1⟩)]⟩

/-- Witness for the C5 theorem: across 10 ticks the video binding is
re-uploaded 10 times and the image binding never. -/
theorem dynamic_texture_refresh_policy_witness :
    (ticksDynamicUploads wC5Env wC5Inp 10).count "u_vid" = 10 ∧
    (ticksDynamicUploads wC5Env wC5Inp 10).count "u_img" = 0 :=
  ⟨((dynamic_texture_refresh_policy wC5Env wC5Inp "u_vid" (by decide)).2 10
      ⟨wVidSource, 0⟩ wVidSource none (by decide) (by decide)).1 (Or.inl rfl),
   ((dynamic_texture_refresh_policy wC5Env wC5Inp "u_img" (by decide)).2 10
      ⟨wImgSource, 1⟩ wImgSource none (by decide) (by decide)).2 (Or.inl rfl)⟩

theorem applyChanged_append (locations : List (String × Nat)) (active : Uniforms)
    (units : List (String × Nat)) (xs ys : List String) :
    applyChanged locations active units (xs ++ ys) =
      ⟨(applyChanged locations active units xs).applied ++
        (applyChanged locations active units ys).applied,
       (applyChanged locations active units xs).errors ++
        (applyChanged locations active units ys).errors,
       (applyChanged locations active units xs).skipped ++
        (applyChanged locations active units ys).skipped⟩ := by
  induction xs with
  | nil => rfl
  | cons x xs ih =>
    rw [List.cons_append]
    simp only [applyChanged, ih]
    rcases hl : lookupA x locations with _ | loc
    · simp [hl]
    · rcases hr : setUniformResult (lookupA x active) (lookupA x units) with e | u
      · simp [hl, hr]
      · simp [hl, hr]

/-- C9: when applying the changed uniform named k throws, the error is caught
while every other changed name before and after k is still processed exactly
as it would be on its own; the changed set is cleared and the tick still
issues its draw call. -/
theorem uniform_apply_error_isolated (env : RenderEnv) (inp : TickInput)
    (xs ys : List String) (k : String) (loc : Nat) (e : String)
    (hchanged : inp.changed = xs ++ k :: ys)
    (hloc : lookupA k env.uniformLocations = some loc)
    (hthrow : setUniformResult (lookupA k inp.active) (lookupA k env.textureUnits) =
      .error e) :
    (renderTick env inp).outcome.applied =
      (applyChanged env.uniformLocations inp.active env.textureUnits xs).applied ++
      (applyChanged env.uniformLocations inp.active env.textureUnits ys).applied ∧
    (renderTick env inp).outcome.errors =
      (applyChanged env.uniformLocations inp.active env.textureUnits xs).errors ++
      k :: (applyChanged env.uniformLocations inp.active env.textureUnits ys).errors ∧
    (renderTick env inp).outcome.skipped =
      (applyChanged env.uniformLocations inp.active env.textureUnits xs).skipped ++
      (applyChanged env.uniformLocations inp.active env.textureUnits ys).skipped ∧
    (renderTick env inp).changedAfter = [] ∧
    (renderTick env inp).drawCalls = 1 := by
  have hout : (renderTick env inp).outcome =
      applyChanged env.uniformLocations inp.active env.textureUnits (xs ++ k :: ys) := by
    rw [← hchanged]
    rfl
  have hk : applyChanged env.uniformLocations inp.active env.textureUnits (k :: ys) =
      ⟨(applyChanged env.uniformLocations inp.active env.textureUnits ys).applied,
       k :: (applyChanged env.uniformLocations inp.active env.textureUnits ys).errors,
       (applyChanged env.uniformLocations inp.active env.textureUnits ys).skipped⟩ := by
    simp only [applyChanged, hloc, hthrow]
  rw [hout, applyChanged_append, hk]
  exact ⟨rfl, rfl, rfl, rfl, rfl⟩

/-- Tick context for the C9 witness: three located uniforms, no texture
units. -/
def wC9Env : RenderEnv :=
  ⟨none, none, none, [("u_a", 0), ("u_bad", 1), ("u_b", 2)], []⟩

/-- Tick state for the C9 witness: the middle changed name is a texture
uniform with no allocated unit, so applying it throws inside setUniform. -/
def wC9Inp : TickInput :=
  ⟨0, 0, 0, 0, 0,
   [("u_a", .numeric .float (.num 1)), ("u_bad", .texture wImgSource none),
    ("u_b", .numeric .float (.num 2))],
   ["u_a", "u_bad", "u_b"], []⟩

/-- Witness for the C9 theorem: the failing middle uniform is logged while
the names before and after it are still applied, and the draw call is
issued. -/
theorem uniform_apply_error_isolated_witness :
    (renderTick wC9Env wC9Inp).outcome.applied = ["u_a", "u_b"] ∧
    (renderTick wC9Env wC9Inp).outcome.errors = ["u_bad"] ∧
    (renderTick wC9Env wC9Inp).changedAfter = [] ∧
    (renderTick wC9Env wC9Inp).drawCalls = 1 := by
  have h := uniform_apply_error_isolated wC9Env wC9Inp ["u_a"] ["u_b"] "u_bad" 1
    "Texture unit must be provided for texture uniforms" rfl rfl rfl
  refine ⟨?_, ?_, h.2.2.2.1, h.2.2.2.2⟩
  · rw [h.1]
    rfl
  · rw [h.2.1]
    rfl

/-- Tick context for the C8 evidence: the time uniform has a location. -/
def wC8Env : RenderEnv := ⟨none, some 0, none, [], []⟩

/-- Tick state for the C8 evidence: the tick timestamp is 6000 ms while, in
the scenario, the render loop of the current program began at 5000 ms. -/
def wC8Inp : TickInput := ⟨6000, 800, 600, 0, 0, [], [], []⟩

/-- C8: code bug evidence. The tick at timestamp 6000 ms pushes 6 seconds for
the time uniform, the raw timestamp scaled by 0.001, whereas the documented
elapsed time since the render loop began at 5000 ms would be 1 second. -/
theorem time_uniform_not_elapsed_since_start :
    (renderTick wC8Env wC8Inp).timePushed = some 6 ∧
    ((6000 : Rat) - 5000) * (1 / 1000) = 1 ∧
    (6 : Rat) ≠ 1 := by
  refine ⟨?_, by norm_num, by norm_num⟩
  show some ((6000 : Rat) * (1 / 1000)) = some 6
  exact congrArg some (by norm_num)

/-- C7: the resize handler computes the target backing store as the floor of
client size times pixel ratio per axis; when the target equals the current
size it performs no mutation, no viewport call and no immediate frame;
otherwise it sets both dimensions, issues exactly one viewport call at the
origin with the new size and invokes exactly one immediate render frame (the
render function being registered); a pixel ratio of zero is accepted and
yields a zero sized backing store. -/
theorem handleResize_behavior (clientW clientH : Int) (pixelRatio : Rat)
    (st : ResizeState) :
    (st.width = Int.floor ((clientW : Rat) * pixelRatio) →
      st.height = Int.floor ((clientH : Rat) * pixelRatio) →
      handleResize clientW clientH pixelRatio true st = ⟨st, [], 0⟩) ∧
    (st.width ≠ Int.floor ((clientW : Rat) * pixelRatio) ∨
      st.height ≠ Int.floor ((clientH : Rat) * pixelRatio) →
      handleResize clientW clientH pixelRatio true st =
        ⟨⟨Int.floor ((clientW : Rat) * pixelRatio),
          Int.floor ((clientH : Rat) * pixelRatio)⟩,
         [(0, 0, Int.floor ((clientW : Rat) * pixelRatio),
           Int.floor ((clientH : Rat) * pixelRatio))], 1⟩) ∧
    (handleResize clientW clientH 0 true st).state = ⟨0, 0⟩ := by
  refine ⟨?_, ?_, ?_⟩
  · intro h1 h2
    have hnc : ¬(st.width ≠ Int.floor ((clientW : Rat) * pixelRatio) ∨
        st.height ≠ Int.floor ((clientH : Rat) * pixelRatio)) := by
      push_neg
      exact ⟨h1, h2⟩
    show (if st.width ≠ Int.floor ((clientW : Rat) * pixelRatio) ∨
        st.height ≠ Int.floor ((clientH : Rat) * pixelRatio) then _ else _) = _
    rw [if_neg hnc]
  · intro hc
    show (if st.width ≠ Int.floor ((clientW : Rat) * pixelRatio) ∨
        st.height ≠ Int.floor ((clientH : Rat) * pixelRatio) then _ else _) = _
    rw [if_pos hc]
    rfl
  · have hfw : Int.floor ((clientW : Rat) * (0 : Rat)) = (0 : Int) := by
      rw [mul_zero]
      exact Int.floor_zero
    have hfh : Int.floor ((clientH : Rat) * (0 : Rat)) = (0 : Int) := by
      rw [mul_zero]
      exact Int.floor_zero
    obtain ⟨w, h⟩ := st
    simp only [handleResize, hfw, hfh]
    by_cases hc : w ≠ (0 : Int) ∨ h ≠ (0 : Int)
    · rw [if_pos hc]
    · rw [if_neg hc]
      push_neg at hc
      rw [hc.1, hc.2]

/-- Witness for the C7 theorem at concrete inputs: a 400 by 300 client size
at pixel ratio 2 resizing a stale 100 by 100 store, the no-op on the already
matching store, and the zero pixel ratio case. -/
theorem handleResize_behavior_witness :
    handleResize 400 300 2 true ⟨100, 100⟩ = ⟨⟨800, 600⟩, [(0, 0, 800, 600)], 1⟩ ∧
    handleResize 400 300 2 true ⟨800, 600⟩ = ⟨⟨800, 600⟩, [], 0⟩ ∧
    (handleResize 400 300 0 true ⟨800, 600⟩).state = ⟨0, 0⟩ := by
  have hw : Int.floor (((400 : Int) : Rat) * 2) = (800 : Int) := by norm_num
  have hh : Int.floor (((300 : Int) : Rat) * 2) = (600 : Int) := by norm_num
  refine ⟨?_, ?_, (handleResize_behavior 400 300 0 ⟨800, 600⟩).2.2⟩
  · have h := (handleResize_behavior 400 300 2 ⟨100, 100⟩).2.1
      (Or.inl (by rw [hw]; norm_num))
    rw [h, hw, hh]
  · exact (handleResize_behavior 400 300 2 ⟨800, 600⟩).1
      (by rw [hw]) (by rw [hh])

/-- C6: code bug evidence. A texture uniform with no options of its own is
created with the built-in per-field defaults (clamp-to-edge, linear, flipY)
even when the component configuration carries defaultTextureOptions
requesting a nearest min filter; had the documented fallback been applied,
the resolved min filter would have been nearest. -/
theorem defaultTextureOptions_ignored :
    resolveTextureParams (shaderCanvasCreationOptions
        ⟨some ⟨none, none, some .nearest, none, none⟩⟩ ⟨wImgSource, none⟩) =
      ⟨.clampToEdge, .clampToEdge, .linear, .linear, true⟩ ∧
    (resolveTextureParams (some ⟨none, none, some .nearest, none, none⟩)).minFilter =
      .nearest ∧
    TextureFilter.linear ≠ TextureFilter.nearest :=
  ⟨rfl, rfl, by decide⟩

end GlslReact
